import Mathlib

/-
  Verification development for the clinical-trial payment reconciliation
  pipeline (backend/agents/tools.py, backend/services/orchestration_service.py,
  backend/app.py).

  The tabular engines operate on four pandas DataFrames; here each table is a
  list of records (one structure per table schema), currency amounts are exact
  rationals, and the pandas merge / duplicated / groupby operations used by the
  code are embedded as explicit list computations with the same row semantics.
-/

/-- Row of the visits table (columns produced by the data service and consumed
by the tools: patient_id, site_id, visit_type, visit_date, status). -/
structure Visit where
  patient_id : String
  site_id : String
  visit_type : String
  visit_date : String
  status : String
deriving DecidableEq, Repr

/-- Row of the payments table (payment_id, site_id, patient_id, visit_type,
amount_usd, payment_date, invoice_number). -/
structure Payment where
  payment_id : String
  site_id : String
  patient_id : String
  visit_type : String
  amount_usd : ℚ
  payment_date : String
  invoice_number : String
deriving DecidableEq, Repr

/-- Row of the contracts table: one fee column per visit type. -/
structure Contract where
  site_id : String
  site_name : String
  country : String
  screening_fee_usd : ℚ
  baseline_fee_usd : ℚ
  month3_fee_usd : ℚ
  month6_fee_usd : ℚ
  month12_fee_usd : ℚ
  closeout_fee_usd : ℚ
deriving DecidableEq, Repr

/-- Row of the budgets table (site_id, allocated_budget_usd, currency). -/
structure Budget where
  site_id : String
  allocated_budget_usd : ℚ
  currency : String
deriving DecidableEq, Repr

/-! ## Reconciliation engine (ReconciliationTool._run)

The tool filters visits to status == completed, outer-merges them with the
payments table on the composite key (site_id, patient_id, visit_type) with a
merge indicator, and classifies rows: left_only rows are unpaid visits,
right_only rows are unmatched payments.  It separately inner-joins the
screen_failure visits with payments (disallowed payments) and selects the
payments whose composite key occurs at least twice (duplicated keep=False). -/

/-- The composite-key equality used by pd.merge on
['site_id', 'patient_id', 'visit_type'] between a visit row and a payment row. -/
def keyMatch (v : Visit) (p : Payment) : Bool :=
  v.site_id == p.site_id && v.patient_id == p.patient_id && v.visit_type == p.visit_type

/-- completed_visits = visits_df[visits_df['status'] == 'completed'] -/
def completedVisits (visits : List Visit) : List Visit :=
  visits.filter (fun v => v.status == "completed")

/-- screen_failures = visits_df[visits_df['status'] == 'screen_failure'] -/
def screenFailures (visits : List Visit) : List Visit :=
  visits.filter (fun v => v.status == "screen_failure")

/-- Value of the _merge indicator column added by pd.merge(indicator=True). -/
inductive MergeTag where
  | both
  | left_only
  | right_only
deriving DecidableEq, Repr

/-- One row of the outer merge of visits with payments: the visit columns
(absent on right_only rows), the payment columns (absent on left_only rows),
and the _merge indicator. -/
structure MergedRow where
  visit : Option Visit
  payment : Option Payment
  merge_tag : MergeTag
deriving DecidableEq, Repr

/-- Rows of the outer merge contributed by the left (visit) side: a visit with
no key-matching payment yields a single left_only row; a visit with matching
payments yields one both row per matching payment. -/
def outerLeftRows (payments : List Payment) : List Visit → List MergedRow
  | [] => []
  | v :: vs =>
      (if (payments.filter (keyMatch v)).isEmpty then
        [⟨some v, none, MergeTag.left_only⟩]
      else
        (payments.filter (keyMatch v)).map (fun p => ⟨some v, some p, MergeTag.both⟩))
      ++ outerLeftRows payments vs

/-- Rows of the outer merge contributed by the right (payment) side: one
right_only row per payment whose key matches no visit on the left. -/
def outerRightRows (vs : List Visit) (payments : List Payment) : List MergedRow :=
  (payments.filter (fun p => (vs.filter (fun v => keyMatch v p)).isEmpty)).map
    (fun p => ⟨none, some p, MergeTag.right_only⟩)

/-- merged = pd.merge(completed_visits, payments_df, on=key, how='outer',
indicator=True), as a list of rows. -/
def reconMerged (visits : List Visit) (payments : List Payment) : List MergedRow :=
  outerLeftRows payments (completedVisits visits) ++
    outerRightRows (completedVisits visits) payments

/-- unpaid_visits = merged[merged['_merge'] == 'left_only'] -/
def unpaidVisits (visits : List Visit) (payments : List Payment) : List MergedRow :=
  (reconMerged visits payments).filter (fun r => r.merge_tag == MergeTag.left_only)

/-- unmatched_payments = merged[merged['_merge'] == 'right_only'] -/
def unmatchedPayments (visits : List Visit) (payments : List Payment) : List MergedRow :=
  (reconMerged visits payments).filter (fun r => r.merge_tag == MergeTag.right_only)

/-- Count (not computed explicitly by the tool, used to state the spec
property): completed visits whose composite key matches at least one payment. -/
def matchedVisitCount (visits : List Visit) (payments : List Payment) : Nat :=
  ((completedVisits visits).filter
    (fun v => !(payments.filter (keyMatch v)).isEmpty)).length

/-- Inner merge on the composite key: one row per (left visit, key-matching
payment) pair, in left order then right order, as pd.merge(how='inner'). -/
def innerRows (payments : List Payment) : List Visit → List (Visit × Payment)
  | [] => []
  | v :: vs =>
      (payments.filter (keyMatch v)).map (fun p => (v, p)) ++ innerRows payments vs

/-- sf_payments = pd.merge(screen_failures, payments_df, on=key, how='inner'):
the disallowed (screen-failure) payment rows of the reconciliation tool. -/
def disallowedRows (visits : List Visit) (payments : List Payment) :
    List (Visit × Payment) :=
  innerRows payments (screenFailures visits)

/-- sf_amount = sf_payments['amount_usd'].sum() -/
def sfAmount (visits : List Visit) (payments : List Payment) : ℚ :=
  ((disallowedRows visits payments).map (fun vp => vp.2.amount_usd)).sum

/-- The pandas key-duplication test between two payment rows
(subset=['site_id', 'patient_id', 'visit_type']). -/
def samePayKey (p q : Payment) : Bool :=
  p.site_id == q.site_id && p.patient_id == q.patient_id && p.visit_type == q.visit_type

/-- duplicates = payments_df[payments_df.duplicated(subset=key, keep=False)]:
the payments whose composite key occurs at least twice in the table. -/
def duplicatePayments (payments : List Payment) : List Payment :=
  payments.filter (fun p => 2 ≤ (payments.filter (fun q => samePayKey p q)).length)

/-- The reported number of suspected duplicate payments: len(duplicates)//2. -/
def duplicatePairCount (payments : List Payment) : Nat :=
  (duplicatePayments payments).length / 2

/-- duplicate_amount = duplicates['amount_usd'].sum() / 2. -/
def duplicateAmount (payments : List Payment) : ℚ :=
  ((duplicatePayments payments).map (fun p => p.amount_usd)).sum / 2

/-! ## General list lemmas -/

/-- A filter and its complement split the length of a list. -/
theorem length_filter_add_length_filter_neg {α : Type} (p : α → Bool) :
    ∀ l : List α, (l.filter p).length + (l.filter (fun a => !p a)).length = l.length
  | [] => rfl
  | a :: l => by
      by_cases h : p a
      · simp [List.filter_cons, h, Nat.succ_add,
          length_filter_add_length_filter_neg p l]
      · simp [List.filter_cons, h,
          ← length_filter_add_length_filter_neg p l]
        omega

/-- Filtering for left_only rows inside the rows contributed by the left side
of the outer merge keeps exactly the visits with no key-matching payment. -/
theorem outerLeftRows_filter_left_only (payments : List Payment) :
    ∀ vs : List Visit,
      (outerLeftRows payments vs).filter (fun r => r.merge_tag == MergeTag.left_only)
        = (vs.filter (fun v => (payments.filter (keyMatch v)).isEmpty)).map
            (fun v => ⟨some v, none, MergeTag.left_only⟩)
  | [] => rfl
  | v :: vs => by
      by_cases h : (payments.filter (keyMatch v)).isEmpty
      · simp only [outerLeftRows, h, if_pos, List.filter_append,
          outerLeftRows_filter_left_only payments vs, List.filter_cons, h]
        simp [List.filter_cons, h]
      · simp only [outerLeftRows, h, if_neg, List.filter_append,
          outerLeftRows_filter_left_only payments vs]
        simp [List.filter_cons, h, List.filter_map, Function.comp_def]

/-- The right-side rows of the outer merge are all tagged right_only, so none
of them survives the left_only filter. -/
theorem outerRightRows_filter_left_only (vs : List Visit) (payments : List Payment) :
    (outerRightRows vs payments).filter (fun r => r.merge_tag == MergeTag.left_only)
      = [] := by
  simp [outerRightRows, List.filter_map, Function.comp_def]

/-- C1: the unpaid visits are exactly the left_only rows of the outer join,
one per completed visit whose composite key matches zero payments, and the
unpaid count plus the count of completed visits whose key matches at least one
payment equals the number of completed visits. -/
theorem C1_unpaid_matched_partition (visits : List Visit) (payments : List Payment) :
    unpaidVisits visits payments
      = ((completedVisits visits).filter
          (fun v => (payments.filter (keyMatch v)).isEmpty)).map
            (fun v => ⟨some v, none, MergeTag.left_only⟩)
    ∧ (unpaidVisits visits payments).length + matchedVisitCount visits payments
        = (completedVisits visits).length := by
  have hrows : unpaidVisits visits payments
      = ((completedVisits visits).filter
          (fun v => (payments.filter (keyMatch v)).isEmpty)).map
            (fun v => ⟨some v, none, MergeTag.left_only⟩) := by
    unfold unpaidVisits reconMerged
    rw [List.filter_append, outerLeftRows_filter_left_only,
      outerRightRows_filter_left_only, List.append_nil]
  refine ⟨hrows, ?_⟩
  rw [hrows, List.length_map, matchedVisitCount]
  exact length_filter_add_length_filter_neg _ (completedVisits visits)

/-! ## C2: disallowed (screen-failure) payments -/

/-- The composite key named by the scenario, as a predicate on visit rows. -/
def c2VisitKey (v : Visit) : Bool :=
  v.site_id == "SITE_001" && v.patient_id == "P-0001" && v.visit_type == "screening"

/-- The composite key named by the scenario, as a predicate on payment rows. -/
def c2PayKey (p : Payment) : Bool :=
  p.site_id == "SITE_001" && p.patient_id == "P-0001" && p.visit_type == "screening"

/-- For a visit that carries the scenario key, matching a payment against the
visit is the same as testing the payment for the scenario key. -/
theorem keyMatch_of_c2VisitKey (v : Visit) (hv : c2VisitKey v = true) (p : Payment) :
    keyMatch v p = c2PayKey p := by
  obtain ⟨pid, sid, vt, vd, st⟩ := v
  simp only [c2VisitKey, Bool.and_eq_true, beq_iff_eq] at hv
  obtain ⟨⟨h1, h2⟩, h3⟩ := hv
  subst h1; subst h2; subst h3
  rw [Bool.eq_iff_iff]
  simp only [keyMatch, c2PayKey, Bool.and_eq_true, beq_iff_eq]
  constructor
  · rintro ⟨⟨a, b⟩, c⟩
    exact ⟨⟨a.symm, b.symm⟩, c.symm⟩
  · rintro ⟨⟨a, b⟩, c⟩
    exact ⟨⟨a.symm, b.symm⟩, c.symm⟩

/-- The inner merge is empty when no left row matches any payment. -/
theorem innerRows_eq_nil (payments : List Payment) :
    ∀ l : List Visit, (∀ v ∈ l, payments.filter (keyMatch v) = []) →
      innerRows payments l = []
  | [], _ => rfl
  | v :: vs, h => by
      simp only [innerRows, h v (List.mem_cons_self v vs), List.map_nil,
        List.nil_append]
      exact innerRows_eq_nil payments vs (fun v' hv' => h v' (List.mem_cons_of_mem v hv'))

/-- If exactly one left row carries the scenario key, that row matches exactly
the payment p0 and every other left row matches no payment, then the inner
merge is the single row (that visit, p0). -/
theorem innerRows_eq_single (payments : List Payment) (p0 : Payment) :
    ∀ l : List Visit,
      (∀ v ∈ l, c2VisitKey v = true → payments.filter (keyMatch v) = [p0]) →
      (l.filter c2VisitKey).length = 1 →
      (∀ v ∈ l, c2VisitKey v = false → payments.filter (keyMatch v) = []) →
      ∃ v, innerRows payments l = [(v, p0)]
  | [], _, hone, _ => by simp at hone
  | v :: vs, hkey, hone, hoth => by
      by_cases hv : c2VisitKey v = true
      · have hrest : vs.filter c2VisitKey = [] := by
          rw [List.filter_cons_of_pos hv] at hone
          simpa [List.length_eq_zero] using Nat.succ_injective hone
        have hvs : innerRows payments vs = [] := by
          refine innerRows_eq_nil payments vs (fun v' hv' => ?_)
          refine hoth v' (List.mem_cons_of_mem v hv') ?_
          by_contra hcon
          have : v' ∈ vs.filter c2VisitKey :=
            List.mem_filter.mpr ⟨hv', by simpa using hcon⟩
          simp [hrest] at this
        refine ⟨v, ?_⟩
        simp [innerRows, hkey v (List.mem_cons_self v vs) hv, hvs]
      · have hv' : c2VisitKey v = false := by simpa using hv
        have hone' : (vs.filter c2VisitKey).length = 1 := by
          rwa [List.filter_cons_of_neg (by simp [hv'])] at hone
        obtain ⟨w, hw⟩ := innerRows_eq_single payments p0 vs
          (fun u hu => hkey u (List.mem_cons_of_mem v hu))
          hone'
          (fun u hu => hoth u (List.mem_cons_of_mem v hu))
        refine ⟨w, ?_⟩
        simp [innerRows, hoth v (List.mem_cons_self v vs) hv', hw]

/-- C2 (amended): if the screen-failure visit set contains exactly one row with
key (SITE_001, P-0001, screening), exactly the single payment p0 carries that
key, and no other screen-failure visit row matches any payment, then the tool
reports exactly one disallowed payment whose total equals the amount of p0. -/
theorem C2_disallowed_single (visits : List Visit) (payments : List Payment)
    (p0 : Payment)
    (hpay : payments.filter c2PayKey = [p0])
    (hsf : ((screenFailures visits).filter c2VisitKey).length = 1)
    (hoth : ∀ v ∈ screenFailures visits, c2VisitKey v = false →
      payments.filter (keyMatch v) = []) :
    (disallowedRows visits payments).length = 1
      ∧ sfAmount visits payments = p0.amount_usd := by
  obtain ⟨w, hw⟩ := innerRows_eq_single payments p0 (screenFailures visits)
    (fun v _ hv => by
      rw [List.filter_congr (fun p _ => keyMatch_of_c2VisitKey v hv p)]
      exact hpay)
    hsf hoth
  constructor
  · simp [disallowedRows, hw]
  · simp [sfAmount, disallowedRows, hw]

/-- Concrete visits falsifying C2 as universally stated: two screen-failure
rows, each with a key-matching payment. -/
def c2exVisits : List Visit :=
  [⟨"P-0001", "SITE_001", "screening", "2024-01-05", "screen_failure"⟩,
   ⟨"P-0002", "SITE_002", "screening", "2024-01-07", "screen_failure"⟩]

/-- Payments for the C2 counterexample: exactly one payment carries the
(SITE_001, P-0001, screening) key, and one more pays the other screen failure. -/
def c2exPayments : List Payment :=
  [⟨"PAY-00001", "SITE_001", "P-0001", "screening", 1500, "2024-02-01", "INV-SITE_001-00001"⟩,
   ⟨"PAY-00002", "SITE_002", "P-0002", "screening", 1600, "2024-02-02", "INV-SITE_002-00002"⟩]

/-- C2 counterexample: this input contains a screen_failure visit at
(SITE_001, P-0001, screening) and exactly one payment carrying that key, yet
the engine reports 2 disallowed payments totalling 3100, not 1 payment
totalling 1500 — the inner join also picks up the other screen failure. -/
theorem C2_counterexample :
    (∃ v ∈ c2exVisits, v.status = "screen_failure" ∧ c2VisitKey v = true)
    ∧ (c2exPayments.filter c2PayKey).length = 1
    ∧ (c2exPayments.filter c2PayKey).map (fun p => p.amount_usd) = [1500]
    ∧ (disallowedRows c2exVisits c2exPayments).length = 2
    ∧ sfAmount c2exVisits c2exPayments = 3100 := by
  have hrows : (disallowedRows c2exVisits c2exPayments).map (fun vp => vp.2.amount_usd)
      = [1500, 1600] := by decide
  refine ⟨by decide, by decide, by decide, by decide, ?_⟩
  rw [sfAmount, hrows]
  norm_num

/-- Visits for the witness of the amended C2 theorem: one screen failure with
the scenario key and one unrelated completed visit. -/
def c2wVisits : List Visit :=
  [⟨"P-0001", "SITE_001", "screening", "2024-01-05", "screen_failure"⟩,
   ⟨"P-0003", "SITE_003", "baseline", "2024-01-09", "completed"⟩]

/-- Payments for the witness of the amended C2 theorem: the single disallowed
payment plus an unrelated payment for the completed visit. -/
def c2wPayments : List Payment :=
  [⟨"PAY-00001", "SITE_001", "P-0001", "screening", 1500, "2024-02-01", "INV-SITE_001-00001"⟩,
   ⟨"PAY-00003", "SITE_003", "P-0003", "baseline", 3000, "2024-02-03", "INV-SITE_003-00003"⟩]

/-- Closed instance of the amended C2 theorem at a concrete input with one
screen failure, one disallowed payment for it, and unrelated completed-visit
traffic. -/
theorem C2_disallowed_single_witness :
    (disallowedRows c2wVisits c2wPayments).length = 1
      ∧ sfAmount c2wVisits c2wPayments = 1500 := by
  have h := C2_disallowed_single c2wVisits c2wPayments
    ⟨"PAY-00001", "SITE_001", "P-0001", "screening", 1500, "2024-02-01", "INV-SITE_001-00001"⟩
    (by decide) (by decide) (by decide)
  simpa using h

/-! ## C3: duplicate payment detection -/

/-- The composite key of the duplicate scenario, as a predicate on payments. -/
def c3Key (p : Payment) : Bool :=
  p.site_id == "SITE_002" && p.patient_id == "P-0010" && p.visit_type == "baseline"

/-- For a payment carrying the scenario key, sharing a key with it is the same
as carrying the scenario key. -/
theorem samePayKey_of_c3Key (p : Payment) (hp : c3Key p = true) (q : Payment) :
    samePayKey p q = c3Key q := by
  obtain ⟨pay, sid, pid, vt, amt, pd, inv⟩ := p
  simp only [c3Key, Bool.and_eq_true, beq_iff_eq] at hp
  obtain ⟨⟨h1, h2⟩, h3⟩ := hp
  subst h1; subst h2; subst h3
  rw [Bool.eq_iff_iff]
  simp only [samePayKey, c3Key, Bool.and_eq_true, beq_iff_eq]
  constructor
  · rintro ⟨⟨a, b⟩, c⟩
    exact ⟨⟨a.symm, b.symm⟩, c.symm⟩
  · rintro ⟨⟨a, b⟩, c⟩
    exact ⟨⟨a.symm, b.symm⟩, c.symm⟩

/-- A two-element list whose elements all map to 3000 sums to 6000 under the
amount projection. -/
theorem sum_amounts_of_length_two (l : List Payment) (hl : l.length = 2)
    (ha : ∀ p ∈ l, p.amount_usd = 3000) :
    ((l.map (fun p => p.amount_usd)).sum : ℚ) = 6000 := by
  obtain ⟨a, b, rfl⟩ := List.length_eq_two.mp hl
  have h1 := ha a (by simp)
  have h2 := ha b (by simp)
  simp [h1, h2]
  norm_num

/-- C3: if exactly two payments carry the key (SITE_002, P-0010, baseline),
both with amount 3000, and every other payment's key occurs exactly once, then
the tool reports one duplicate pair and an estimated duplicate amount of 3000. -/
theorem C3_duplicate_pair (payments : List Payment)
    (h2 : (payments.filter c3Key).length = 2)
    (hamt : ∀ p ∈ payments, c3Key p = true → p.amount_usd = 3000)
    (huniq : ∀ p ∈ payments, c3Key p = false →
      (payments.filter (fun q => samePayKey p q)).length = 1) :
    duplicatePairCount payments = 1 ∧ duplicateAmount payments = 3000 := by
  have hdup : duplicatePayments payments = payments.filter c3Key := by
    refine List.filter_congr (fun p hp => ?_)
    by_cases hc : c3Key p = true
    · have hfil : payments.filter (fun q => samePayKey p q) = payments.filter c3Key :=
        List.filter_congr (fun q _ => samePayKey_of_c3Key p hc q)
      simp [hfil, h2, hc]
    · have hc' : c3Key p = false := by simpa using hc
      simp [hc', huniq p hp hc']
  constructor
  · rw [duplicatePairCount, hdup, h2]
  · rw [duplicateAmount, hdup,
      sum_amounts_of_length_two (payments.filter c3Key) h2
        (fun p hp => hamt p (List.mem_of_mem_filter hp) (List.of_mem_filter hp))]
    norm_num

/-- Payments witnessing C3: the duplicated pair plus an unrelated payment. -/
def c3wPayments : List Payment :=
  [⟨"PAY-00010", "SITE_002", "P-0010", "baseline", 3000, "2024-02-10", "INV-SITE_002-00010"⟩,
   ⟨"PAY-00011", "SITE_002", "P-0010", "baseline", 3000, "2024-02-11", "INV-SITE_002-00011"⟩,
   ⟨"PAY-00012", "SITE_001", "P-0002", "screening", 1500, "2024-02-12", "INV-SITE_001-00012"⟩]

/-- Closed instance of C3 on a concrete payment table. -/
theorem C3_duplicate_pair_witness :
    duplicatePairCount c3wPayments = 1 ∧ duplicateAmount c3wPayments = 3000 :=
  C3_duplicate_pair c3wPayments (by decide) (by decide) (by decide)

/-! ## Contract compliance engine (ContractComplianceTool._run)

The tool left-merges payments with contracts on site_id, derives the expected
fee from the visit_type via a conditional chain, computes
variance = amount_usd - expected, and keeps rows with abs(variance) > 1 as
violations, split into overcharges (variance > 0) and undercharges
(variance < 0).  A payment whose site_id has no contract row survives the left
merge with NaN contract columns; its expected amount and variance are NaN,
embedded here as none, and a NaN comparison is false in pandas, embedded here
by making the violation test false on none. -/

/-- merged = pd.merge(payments_df, contracts_df, on='site_id', how='left'):
a payment with no contract row keeps NaN contract columns (none); otherwise
one row per matching contract. -/
def leftMergeRows (contracts : List Contract) : List Payment → List (Payment × Option Contract)
  | [] => []
  | p :: ps =>
      (if (contracts.filter (fun c => c.site_id == p.site_id)).isEmpty then
        [(p, none)]
      else
        (contracts.filter (fun c => c.site_id == p.site_id)).map (fun c => (p, some c)))
      ++ leftMergeRows contracts ps

/-- The checked rows of the compliance engine (its Total Payments Checked is
the length of this list). -/
def complianceMerged (contracts : List Contract) (payments : List Payment) :
    List (Payment × Option Contract) :=
  leftMergeRows contracts payments

/-- get_expected_amount: dispatch on visit_type into the fee columns; none
embeds the NaN produced when the contract columns are missing; an unknown
visit_type returns the literal 0 even without a contract, as in the code. -/
def expectedAmount (row : Payment × Option Contract) : Option ℚ :=
  if row.1.visit_type == "screening" then row.2.map (fun c => c.screening_fee_usd)
  else if row.1.visit_type == "baseline" then row.2.map (fun c => c.baseline_fee_usd)
  else if row.1.visit_type == "month_3" then row.2.map (fun c => c.month3_fee_usd)
  else if row.1.visit_type == "month_6" then row.2.map (fun c => c.month6_fee_usd)
  else if row.1.visit_type == "month_12" then row.2.map (fun c => c.month12_fee_usd)
  else if row.1.visit_type == "closeout" then row.2.map (fun c => c.closeout_fee_usd)
  else some 0

/-- variance = amount_usd - expected_amount (NaN when the expected is NaN). -/
def rowVariance (row : Payment × Option Contract) : Option ℚ :=
  (expectedAmount row).map (fun e => row.1.amount_usd - e)

/-- The violation test abs(variance) > 1; false on NaN as in pandas. -/
def isViolation (row : Payment × Option Contract) : Bool :=
  match rowVariance row with
  | some v => decide (1 < |v|)
  | none => false

/-- The overcharge test variance > 0; false on NaN. -/
def isOvercharge (row : Payment × Option Contract) : Bool :=
  match rowVariance row with
  | some v => decide (0 < v)
  | none => false

/-- The undercharge test variance < 0; false on NaN. -/
def isUndercharge (row : Payment × Option Contract) : Bool :=
  match rowVariance row with
  | some v => decide (v < 0)
  | none => false

/-- violations = merged[abs(merged['variance']) > 1] -/
def violationRows (contracts : List Contract) (payments : List Payment) :
    List (Payment × Option Contract) :=
  (complianceMerged contracts payments).filter isViolation

/-- overcharges = violations[violations['variance'] > 0] -/
def overchargeRows (contracts : List Contract) (payments : List Payment) :
    List (Payment × Option Contract) :=
  (violationRows contracts payments).filter isOvercharge

/-- undercharges = violations[violations['variance'] < 0] -/
def underchargeRows (contracts : List Contract) (payments : List Payment) :
    List (Payment × Option Contract) :=
  (violationRows contracts payments).filter isUndercharge

/-- A violation row has a defined variance of magnitude above 1, hence is an
overcharge or an undercharge but never both. -/
theorem isViolation_split (row : Payment × Option Contract)
    (h : isViolation row = true) :
    (isOvercharge row = true ∧ isUndercharge row = false)
      ∨ (isUndercharge row = true ∧ isOvercharge row = false) := by
  unfold isViolation at h
  unfold isOvercharge isUndercharge
  cases hv : rowVariance row with
  | none => rw [hv] at h; exact absurd h (by simp)
  | some v =>
      rw [hv] at h
      have habs : 1 < |v| := of_decide_eq_true h
      have hne : v ≠ 0 := by
        intro h0
        rw [h0] at habs
        simp at habs
        exact absurd habs (by norm_num)
      rcases hne.lt_or_lt with hneg | hpos
      · right
        simp [hneg, not_lt_of_gt hneg]
      · left
        simp [hpos, not_lt_of_gt hpos]

/-- C5: the violations partition exactly into overcharges and undercharges:
the counts add up, no row is in both partitions, and every violation is in
one of them. -/
theorem C5_violation_partition (contracts : List Contract) (payments : List Payment) :
    (violationRows contracts payments).length
        = (overchargeRows contracts payments).length
            + (underchargeRows contracts payments).length
    ∧ (∀ row ∈ overchargeRows contracts payments,
        row ∉ underchargeRows contracts payments)
    ∧ (∀ row ∈ violationRows contracts payments,
        row ∈ overchargeRows contracts payments
          ∨ row ∈ underchargeRows contracts payments) := by
  have hmem : ∀ row ∈ violationRows contracts payments, isViolation row = true :=
    fun row hr => List.of_mem_filter hr
  have hunder_eq : (violationRows contracts payments).filter isUndercharge
      = (violationRows contracts payments).filter (fun r => !isOvercharge r) := by
    refine List.filter_congr (fun r hr => ?_)
    rcases isViolation_split r (hmem r hr) with ⟨h1, h2⟩ | ⟨h1, h2⟩
    · simp [h1, h2]
    · simp [h1, h2]
  refine ⟨?_, ?_, ?_⟩
  · rw [overchargeRows, underchargeRows, hunder_eq]
    exact (length_filter_add_length_filter_neg isOvercharge
      (violationRows contracts payments)).symm
  · intro row hro hru
    have ho := List.of_mem_filter hro
    have hu := List.of_mem_filter hru
    rcases isViolation_split row (hmem row (List.mem_of_mem_filter hro)) with
      ⟨_, h2⟩ | ⟨_, h2⟩
    · rw [h2] at hu; exact absurd hu (by simp)
    · rw [h2] at ho; exact absurd ho (by simp)
  · intro row hr
    rcases isViolation_split row (hmem row hr) with ⟨h1, _⟩ | ⟨h1, _⟩
    · exact Or.inl (List.mem_filter.mpr ⟨hr, h1⟩)
    · exact Or.inr (List.mem_filter.mpr ⟨hr, h1⟩)

/-- A contract table without the site referenced by the C4 payment. -/
def c4Contracts : List Contract :=
  [⟨"SITE_001", "USA Medical Center 1", "USA", 1500, 3000, 2000, 2000, 2500, 3500⟩]

/-- A payment referencing a site_id absent from the contract table. -/
def c4Payments : List Payment :=
  [⟨"PAY-09001", "SITE_999", "P-0001", "screening", 500, "2024-03-01", "INV-SITE_999-09001"⟩]

/-- C4: a payment whose site_id has no contract row is kept in the checked
rows with an undefined (NaN) expected amount and is classified as a
non-violation; the engine output contains no distinct error surfacing for it,
contradicting the specified error policy. -/
theorem C4_unknown_site_silent :
    (c4Contracts.filter (fun c => c.site_id == "SITE_999")).length = 0
    ∧ complianceMerged c4Contracts c4Payments
        = [(⟨"PAY-09001", "SITE_999", "P-0001", "screening", 500, "2024-03-01",
              "INV-SITE_999-09001"⟩, none)]
    ∧ expectedAmount (⟨"PAY-09001", "SITE_999", "P-0001", "screening", 500,
        "2024-03-01", "INV-SITE_999-09001"⟩, none) = none
    ∧ violationRows c4Contracts c4Payments = []
    ∧ overchargeRows c4Contracts c4Payments = []
    ∧ underchargeRows c4Contracts c4Payments = [] := by
  refine ⟨by decide, by decide, by decide, by decide, by decide, by decide⟩

/-! ## Budget analysis engine (BudgetAnalysisTool._run)

site_spend = payments.groupby('site_id')['amount_usd'].sum(); after the left
merge from budgets and fillna(0), the actual spend of a budget row is the sum
of the amounts of the payments at its site (0 when there are none).  The tool
computes variance = actual_spend - allocated_budget_usd and stores
variance_pct = (variance / allocated_budget_usd * 100).round(2). -/

/-- Actual spend at one site: groupby-sum, left merge, fillna(0). -/
def siteSpend (payments : List Payment) (site : String) : ℚ :=
  ((payments.filter (fun p => p.site_id == site)).map (fun p => p.amount_usd)).sum

/-- variance = actual_spend - allocated_budget_usd for one budget row. -/
def budgetVariance (payments : List Payment) (b : Budget) : ℚ :=
  siteSpend payments b.site_id - b.allocated_budget_usd

/-- The variance percentage before rounding: variance / allocated * 100. -/
def rawVariancePct (payments : List Payment) (b : Budget) : ℚ :=
  budgetVariance payments b / b.allocated_budget_usd * 100

/-- Rounding to two decimals, as pandas round(2) on the stored column. -/
def round2 (x : ℚ) : ℚ := ((round (x * 100) : ℤ) : ℚ) / 100

/-- The variance_pct column the tool reports: the rounded percentage. -/
def reportedVariancePct (payments : List Payment) (b : Budget) : ℚ :=
  round2 (rawVariancePct payments b)

/-- Rounding to two decimals never turns a positive value negative. -/
theorem round2_nonneg_of_pos (x : ℚ) (hx : 0 < x) : 0 ≤ round2 x := by
  unfold round2
  have hfloor : (0 : ℤ) ≤ round (x * 100) := by
    rw [round_eq]
    refine Int.floor_nonneg.mpr ?_
    nlinarith
  have : (0 : ℚ) ≤ ((round (x * 100) : ℤ) : ℚ) := by exact_mod_cast hfloor
  linarith [div_nonneg this (by norm_num : (0:ℚ) ≤ 100)]

/-- Rounding to two decimals never turns a negative value positive. -/
theorem round2_nonpos_of_neg (x : ℚ) (hx : x < 0) : round2 x ≤ 0 := by
  unfold round2
  have hfloor : round (x * 100) ≤ 0 := by
    rw [round_eq]
    have h1 : ⌊x * 100 + 1 / 2⌋ < 1 := Int.floor_lt.mpr (by nlinarith)
    omega
  have : ((round (x * 100) : ℤ) : ℚ) ≤ 0 := by exact_mod_cast hfloor
  linarith [div_nonpos_of_nonpos_of_nonneg this (by norm_num : (0:ℚ) ≤ 100)]

/-- C6 (amended): for a budget row with positive allocation, the sign of the
unrounded variance percentage equals the sign of the variance, and the rounded
reported value never has the opposite sign (it can only be flattened to 0). -/
theorem C6_variance_pct_sign (budgets : List Budget) (payments : List Payment)
    (b : Budget) (_hb : b ∈ budgets) (hpos : 0 < b.allocated_budget_usd) :
    (0 < budgetVariance payments b ↔ 0 < rawVariancePct payments b)
    ∧ (budgetVariance payments b < 0 ↔ rawVariancePct payments b < 0)
    ∧ (0 < budgetVariance payments b → 0 ≤ reportedVariancePct payments b)
    ∧ (budgetVariance payments b < 0 → reportedVariancePct payments b ≤ 0) := by
  have hraw : rawVariancePct payments b
      = budgetVariance payments b * (100 / b.allocated_budget_usd) := by
    rw [rawVariancePct]; ring
  have hc : 0 < 100 / b.allocated_budget_usd := by positivity
  have hiff1 : 0 < budgetVariance payments b ↔ 0 < rawVariancePct payments b := by
    rw [hraw]
    constructor
    · intro h; exact mul_pos h hc
    · intro h; nlinarith
  have hiff2 : budgetVariance payments b < 0 ↔ rawVariancePct payments b < 0 := by
    rw [hraw]
    constructor
    · intro h; exact mul_neg_of_neg_of_pos h hc
    · intro h; nlinarith
  refine ⟨hiff1, hiff2, ?_, ?_⟩
  · intro h
    exact round2_nonneg_of_pos _ (hiff1.mp h)
  · intro h
    exact round2_nonpos_of_neg _ (hiff2.mp h)

/-- Budget row of the C6 counterexample. -/
def c6Budget : Budget := ⟨"SITE_001", 1000000, "USD"⟩

/-- Payments of the C6 counterexample: spend exceeds allocation by one dollar. -/
def c6Payments : List Payment :=
  [⟨"PAY-00001", "SITE_001", "P-0001", "screening", 1000001, "2024-02-01",
    "INV-SITE_001-00001"⟩]

/-- C6 counterexample: a strictly positive variance of one dollar on a one
million dollar allocation gives a reported variance_pct of exactly 0 after
round(2), so the sign of the reported value differs from the variance sign. -/
theorem C6_counterexample :
    0 < budgetVariance c6Payments c6Budget
      ∧ reportedVariancePct c6Payments c6Budget = 0 := by
  have hfil : c6Payments.filter (fun p => p.site_id == "SITE_001") = c6Payments := by
    decide
  have hspend : siteSpend c6Payments "SITE_001" = 1000001 := by
    rw [siteSpend, hfil, c6Payments]
    norm_num
  have hvar : budgetVariance c6Payments c6Budget = 1 := by
    rw [budgetVariance, c6Budget, hspend]
    norm_num
  have hraw : rawVariancePct c6Payments c6Budget = 1 / 10000 := by
    rw [rawVariancePct, hvar, c6Budget]
    norm_num
  constructor
  · rw [hvar]; norm_num
  · rw [reportedVariancePct, hraw, round2, round_eq]
    norm_num

/-- Budget row for the C6 witness. -/
def c6wBudget : Budget := ⟨"SITE_002", 10000, "USD"⟩

/-- Payments for the C6 witness: spend 13000 against allocation 10000. -/
def c6wPayments : List Payment :=
  [⟨"PAY-00002", "SITE_002", "P-0002", "baseline", 13000, "2024-02-05",
    "INV-SITE_002-00002"⟩]

/-- Closed instance of the amended C6 theorem on a concrete over-budget site. -/
theorem C6_variance_pct_sign_witness :
    (0 < budgetVariance c6wPayments c6wBudget
        ↔ 0 < rawVariancePct c6wPayments c6wBudget)
    ∧ (budgetVariance c6wPayments c6wBudget < 0
        ↔ rawVariancePct c6wPayments c6wBudget < 0)
    ∧ (0 < budgetVariance c6wPayments c6wBudget
        → 0 ≤ reportedVariancePct c6wPayments c6wBudget)
    ∧ (budgetVariance c6wPayments c6wBudget < 0
        → reportedVariancePct c6wPayments c6wBudget ≤ 0) :=
  C6_variance_pct_sign [c6wBudget] c6wPayments c6wBudget (by simp)
    (by rw [c6wBudget]; norm_num)

/-! ## Orchestration service (ReconciliationOrchestrationService)

The investigation registry is a dict from identifier to InvestigationStatus;
start_investigation stores a fresh record (overall status running, the five
configured stages pending) before spawning the background pipeline and before
returning the identifier.  The _update_status callback mutates the first agent
whose agent_id matches the event: a running event marks it running, a
task_complete event appends the completed task, marks the agent complete and
marks the next list element running when one exists, and an error event marks
the agent errored with message and completion timestamp.  Wall-clock instants
are modelled as natural numbers carried by the events. -/

/-- The status enum shared by investigations and agents. -/
inductive StatusEnum where
  | pending
  | running
  | complete
  | error
deriving DecidableEq, Repr

/-- A completed sub-task record of one agent. -/
structure AgentTask where
  task_name : String
  completed_at : Nat
  output_preview : Option String
deriving DecidableEq, Repr

/-- Status record of a single agent (stage). -/
structure AgentStatus where
  agent_id : String
  agent_name : String
  status : StatusEnum
  started_at : Option Nat := none
  completed_at : Option Nat := none
  tasks_completed : List AgentTask := []
  current_activity : Option String := none
  error_message : Option String := none
deriving DecidableEq, Repr

/-- Overall status record of one investigation. -/
structure InvestigationStatus where
  investigation_id : String
  status : StatusEnum
  started_at : Nat
  completed_at : Option Nat := none
  agents : List AgentStatus
  final_report : Option String := none
  error_message : Option String := none
deriving DecidableEq, Repr

/-- The five stage configurations (agent_id, agent_name, description) of
self.agent_configs, in pipeline order. -/
def agentConfigs : List (String × String × String) :=
  [("data_ingestion", "Data Ingestion Agent", "Loading and validating payment data"),
   ("reconciliation", "Payment Reconciliation Agent", "Matching visits to payments"),
   ("contract_compliance", "Contract Compliance Agent", "Validating payment amounts"),
   ("budget_analysis", "Budget Analysis Agent", "Analyzing budget health"),
   ("report_generation", "Report Generation Agent", "Compiling executive report")]

/-- The agent list built at investigation start: every stage pending, with its
configured id, name and description. -/
def initialAgents : List AgentStatus :=
  agentConfigs.map (fun c =>
    { agent_id := c.1
      agent_name := c.2.1
      status := StatusEnum.pending
      current_activity := some c.2.2 })

/-- The investigation record created by start_investigation, before any stage
event arrives: overall status running, all stages pending. -/
def initialInvestigation (iid : String) (t : Nat) : InvestigationStatus :=
  { investigation_id := iid
    status := StatusEnum.running
    started_at := t
    agents := initialAgents }

/-- The default error message used by the error branch of _update_status. -/
def unknownErrorMsg : String := "Unknown error"

/-- The activity text written when an agent completes. -/
def completeActivity : String := "Complete"

/-- The events handled by _update_status, each carrying the observation
instant of its datetime.now() calls. -/
inductive UpdateEvent where
  | running (agent_id : String) (msg : Option String) (t : Nat)
  | taskComplete (agent_id : String) (task_name : String) (output : Option String) (t : Nat)
  | errorEvent (agent_id : String) (msg : Option String) (t : Nat)
deriving DecidableEq, Repr

/-- The running branch of _update_status applied to one agent record. -/
def setAgentRunning (msg : Option String) (t : Nat) (a : AgentStatus) : AgentStatus :=
  { a with
    status := StatusEnum.running
    started_at := some t
    current_activity := match msg with | some m => some m | none => a.current_activity }

/-- The task_complete branch applied to the matched agent record: append the
completed task (output preview truncated to 200 characters), mark complete. -/
def setAgentComplete (name : String) (output : Option String) (t : Nat)
    (a : AgentStatus) : AgentStatus :=
  { a with
    tasks_completed := a.tasks_completed
      ++ [⟨name, t, output.map (fun s => s.take 200)⟩]
    status := StatusEnum.complete
    completed_at := some t
    current_activity := some completeActivity }

/-- The error branch applied to the matched agent record. -/
def setAgentError (msg : Option String) (t : Nat) (a : AgentStatus) : AgentStatus :=
  { a with
    status := StatusEnum.error
    error_message := some (msg.getD unknownErrorMsg)
    completed_at := some t }

/-- Apply a running event: update the first agent whose id matches; a missing
agent leaves the list unchanged, as the early return in _update_status. -/
def applyRunning (aid : String) (msg : Option String) (t : Nat) :
    List AgentStatus → List AgentStatus
  | [] => []
  | a :: rest =>
      if a.agent_id == aid then setAgentRunning msg t a :: rest
      else a :: applyRunning aid msg t rest

/-- Mark the next stage running with its start timestamp, when one exists
(the current_index + 1 < len(agents) branch). -/
def startNext (t : Nat) : List AgentStatus → List AgentStatus
  | [] => []
  | b :: bs => { b with status := StatusEnum.running, started_at := some t } :: bs

/-- Apply a task_complete event: complete the first matching agent, then mark
the next list element running when one exists. -/
def applyTaskComplete (aid : String) (name : String) (output : Option String)
    (t : Nat) : List AgentStatus → List AgentStatus
  | [] => []
  | a :: rest =>
      if a.agent_id == aid then setAgentComplete name output t a :: startNext t rest
      else a :: applyTaskComplete aid name output t rest

/-- Apply an error event to the first matching agent. -/
def applyError (aid : String) (msg : Option String) (t : Nat) :
    List AgentStatus → List AgentStatus
  | [] => []
  | a :: rest =>
      if a.agent_id == aid then setAgentError msg t a :: rest
      else a :: applyError aid msg t rest

/-- _update_status on one investigation record. -/
def applyEvent (e : UpdateEvent) (s : InvestigationStatus) : InvestigationStatus :=
  match e with
  | UpdateEvent.running aid msg t => { s with agents := applyRunning aid msg t s.agents }
  | UpdateEvent.taskComplete aid name output t =>
      { s with agents := applyTaskComplete aid name output t s.agents }
  | UpdateEvent.errorEvent aid msg t => { s with agents := applyError aid msg t s.agents }

/-- Number of agents currently in status running. -/
def runningCount (ags : List AgentStatus) : Nat :=
  (ags.filter (fun a => a.status == StatusEnum.running)).length

/-- The first agent whose id matches, as used by _update_status. -/
def findAgent (aid : String) (ags : List AgentStatus) : Option AgentStatus :=
  ags.find? (fun a => a.agent_id == aid)

/-- The investigation states reachable through the orchestrator: creation with
all stages pending; marking a stage running, which the driver only does on an
investigation with no stage running (the initial event on the fresh record);
completing the stage that is currently executing, which starts the next stage
only if one exists; and recording a stage error at any point. -/
inductive Reachable (iid : String) (t0 : Nat) : InvestigationStatus → Prop where
  | created : Reachable iid t0 (initialInvestigation iid t0)
  | markRunning (s : InvestigationStatus) (aid : String) (msg : Option String) (t : Nat) :
      Reachable iid t0 s →
      (∀ a ∈ s.agents, a.status ≠ StatusEnum.running) →
      Reachable iid t0 (applyEvent (UpdateEvent.running aid msg t) s)
  | stageComplete (s : InvestigationStatus) (aid : String) (name : String)
      (output : Option String) (t : Nat) :
      Reachable iid t0 s →
      (∀ a ∈ s.agents, findAgent aid s.agents = some a →
        a.status = StatusEnum.running) →
      Reachable iid t0 (applyEvent (UpdateEvent.taskComplete aid name output t) s)
  | stageError (s : InvestigationStatus) (aid : String) (msg : Option String) (t : Nat) :
      Reachable iid t0 s →
      Reachable iid t0 (applyEvent (UpdateEvent.errorEvent aid msg t) s)

/-- A list with no running agent has running count zero. -/
theorem runningCount_eq_zero_of_none (l : List AgentStatus)
    (h : ∀ a ∈ l, a.status ≠ StatusEnum.running) : runningCount l = 0 := by
  rw [runningCount, List.length_eq_zero]
  exact List.filter_eq_nil_iff.mpr (fun a ha => by simpa using h a ha)

/-- Unfolding of the running count over a cons cell. -/
theorem runningCount_cons (a : AgentStatus) (l : List AgentStatus) :
    runningCount (a :: l)
      = (if a.status == StatusEnum.running then 1 else 0) + runningCount l := by
  by_cases h : (a.status == StatusEnum.running) = true
  · simp [runningCount, List.filter_cons, h, Nat.add_comm]
  · simp [runningCount, List.filter_cons, h]

/-- A running member forces a positive running count. -/
theorem one_le_runningCount_of_mem (l : List AgentStatus) (a : AgentStatus)
    (ha : a ∈ l) (hr : a.status = StatusEnum.running) : 1 ≤ runningCount l := by
  rw [runningCount]
  exact List.length_pos_of_mem
    (List.mem_filter.mpr ⟨ha, by simp [hr]⟩)

/-- Marking an agent running in a list with no running agent leaves at most
one running agent. -/
theorem runningCount_applyRunning_le_one (aid : String) (msg : Option String) (t : Nat) :
    ∀ l : List AgentStatus, (∀ a ∈ l, a.status ≠ StatusEnum.running) →
      runningCount (applyRunning aid msg t l) ≤ 1
  | [], _ => by simp [applyRunning, runningCount]
  | a :: l, h => by
      have hl0 : runningCount l = 0 :=
        runningCount_eq_zero_of_none l (fun b hb => h b (List.mem_cons_of_mem a hb))
      by_cases hid : (a.agent_id == aid) = true
      · simp only [applyRunning, hid, if_true]
        rw [runningCount_cons, hl0]
        simp [setAgentRunning]
      · have hid' : (a.agent_id == aid) = false := by simpa using hid
        have ha : (a.status == StatusEnum.running) = false := by
          simpa using h a (List.mem_cons_self a l)
        simp only [applyRunning, hid', Bool.false_eq_true, if_false]
        rw [runningCount_cons, ha]
        simpa using runningCount_applyRunning_le_one aid msg t l
          (fun b hb => h b (List.mem_cons_of_mem a hb))

/-- Starting the next stage of a list with no running agent leaves at most one
running agent. -/
theorem runningCount_startNext_le_one (t : Nat) :
    ∀ l : List AgentStatus, runningCount l = 0 → runningCount (startNext t l) ≤ 1
  | [], _ => by simp [startNext, runningCount]
  | b :: l, h => by
      rw [runningCount_cons] at h
      have hl : runningCount l = 0 := by omega
      simp only [startNext]
      rw [runningCount_cons, hl]
      simp

/-- A task_complete event for an absent agent id leaves the list unchanged. -/
theorem applyTaskComplete_of_not_mem (aid : String) (name : String)
    (output : Option String) (t : Nat) :
    ∀ l : List AgentStatus, (∀ a ∈ l, (a.agent_id == aid) = false) →
      applyTaskComplete aid name output t l = l
  | [], _ => rfl
  | a :: l, h => by
      simp only [applyTaskComplete, h a (List.mem_cons_self a l),
        Bool.false_eq_true, if_false, List.cons.injEq, true_and]
      exact applyTaskComplete_of_not_mem aid name output t l
        (fun b hb => h b (List.mem_cons_of_mem a hb))

/-- Completing the stage that is currently running preserves the at-most-one
running-stage bound: the completed stage stops running and at most the next
one starts. -/
theorem runningCount_applyTaskComplete_le_one (aid : String) (name : String)
    (output : Option String) (t : Nat) :
    ∀ l : List AgentStatus, runningCount l ≤ 1 →
      (∀ a, l.find? (fun x => x.agent_id == aid) = some a →
        a.status = StatusEnum.running) →
      runningCount (applyTaskComplete aid name output t l) ≤ 1
  | [], _, _ => by simp [applyTaskComplete, runningCount]
  | a :: l, hle, hg => by
      by_cases hid : (a.agent_id == aid) = true
      · have ha : a.status = StatusEnum.running :=
          hg a (List.find?_cons_of_pos l hid)
        have hl0 : runningCount l = 0 := by
          rw [runningCount_cons] at hle
          simp [ha] at hle
          omega
        simp only [applyTaskComplete, hid, if_true]
        rw [runningCount_cons]
        have hc : ((setAgentComplete name output t a).status
            == StatusEnum.running) = false := by simp [setAgentComplete]
        rw [hc]
        simpa using runningCount_startNext_le_one t l hl0
      · have hid' : (a.agent_id == aid) = false := by simpa using hid
        have hfind : (a :: l).find? (fun x => x.agent_id == aid)
            = l.find? (fun x => x.agent_id == aid) :=
          List.find?_cons_of_neg l (by simp [hid'])
        simp only [applyTaskComplete, hid', Bool.false_eq_true, if_false]
        by_cases hra : a.status = StatusEnum.running
        · have hl0 : runningCount l = 0 := by
            rw [runningCount_cons] at hle
            simp [hra] at hle
            omega
          have hnone : l.find? (fun x => x.agent_id == aid) = none := by
            cases hfl : l.find? (fun x => x.agent_id == aid) with
            | none => rfl
            | some b =>
                have hb : b.status = StatusEnum.running :=
                  hg b (by rw [hfind]; exact hfl)
                have hmem : b ∈ l := List.mem_of_find?_eq_some hfl
                have := one_le_runningCount_of_mem l b hmem hb
                omega
          rw [applyTaskComplete_of_not_mem aid name output t l
            (fun b hb => by simpa using List.find?_eq_none.mp hnone b hb)]
          rw [runningCount_cons, hl0]
          simp [hra]
        · have hra' : (a.status == StatusEnum.running) = false := by simpa using hra
          have hle' : runningCount l ≤ 1 := by
            rw [runningCount_cons] at hle
            omega
          have ih := runningCount_applyTaskComplete_le_one aid name output t l hle'
            (fun b hb => hg b (by rw [hfind]; exact hb))
          rw [runningCount_cons, hra']
          simpa using ih

/-- An error event never increases the number of running agents. -/
theorem runningCount_applyError_le (aid : String) (msg : Option String) (t : Nat) :
    ∀ l : List AgentStatus, runningCount (applyError aid msg t l) ≤ runningCount l
  | [] => le_refl _
  | a :: l => by
      by_cases hid : (a.agent_id == aid) = true
      · simp only [applyError, hid, if_true]
        rw [runningCount_cons, runningCount_cons]
        have he : ((setAgentError msg t a).status == StatusEnum.running) = false := by
          simp [setAgentError]
        rw [he]
        simp only [Bool.false_eq_true, if_false]
        omega
      · have hid' : (a.agent_id == aid) = false := by simpa using hid
        simp only [applyError, hid', Bool.false_eq_true, if_false]
        rw [runningCount_cons, runningCount_cons]
        exact Nat.add_le_add_left (runningCount_applyError_le aid msg t l) _

/-- C7: every investigation state reachable through the orchestrator's step
relation has at most one stage in status running. -/
theorem C7_at_most_one_running (iid : String) (t0 : Nat) (s : InvestigationStatus)
    (h : Reachable iid t0 s) : runningCount s.agents ≤ 1 := by
  induction h with
  | created =>
      have hag : (initialInvestigation iid t0).agents = initialAgents := rfl
      rw [hag]
      decide
  | markRunning s aid msg t _ hguard _ =>
      exact runningCount_applyRunning_le_one aid msg t s.agents hguard
  | stageComplete s aid name output t _ hguard ih =>
      exact runningCount_applyTaskComplete_le_one aid name output t s.agents ih
        (fun b hb => hguard b (List.mem_of_find?_eq_some hb) hb)
  | stageError s aid msg t _ ih =>
      exact le_trans (runningCount_applyError_le aid msg t s.agents) ih

/-- A concrete reachable state: the first stage was marked running on the
fresh investigation and then completed, which started the second stage. -/
def c7wState : InvestigationStatus :=
  applyEvent (UpdateEvent.taskComplete "data_ingestion" "Validate all data" none 2)
    (applyEvent
      (UpdateEvent.running "data_ingestion" (some "Starting data validation...") 1)
      (initialInvestigation "inv-0001" 0))

/-- Closed instance of the C7 invariant on the concrete reachable state. -/
theorem C7_at_most_one_running_witness : runningCount c7wState.agents ≤ 1 :=
  C7_at_most_one_running "inv-0001" 0 c7wState
    (Reachable.stageComplete _ "data_ingestion" "Validate all data" none 2
      (Reachable.markRunning _ "data_ingestion"
        (some "Starting data validation...") 1 Reachable.created (by decide))
      (by decide))

/-- An error event rewrites the first matching agent in place and leaves every
agent before and after it untouched. -/
theorem applyError_append (aid : String) (msg : Option String) (t : Nat) :
    ∀ pre : List AgentStatus, ∀ a : AgentStatus, ∀ post : List AgentStatus,
      (∀ b ∈ pre, (b.agent_id == aid) = false) →
      (a.agent_id == aid) = true →
      applyError aid msg t (pre ++ a :: post) = pre ++ setAgentError msg t a :: post
  | [], a, post, _, ha => by simp [applyError, ha]
  | b :: pre, a, post, hpre, ha => by
      simp only [List.cons_append, applyError, hpre b (List.mem_cons_self b pre),
        Bool.false_eq_true, if_false, List.cons.injEq, true_and]
      exact applyError_append aid msg t pre a post
        (fun c hc => hpre c (List.mem_cons_of_mem b hc)) ha

/-- C8: recording a stage error sets that stage to error with message and
completion timestamp, leaves its start timestamp and completed-task list and
every other stage's whole record unchanged, leaves the investigation-level
fields unchanged, and moves no further stage to running. -/
theorem C8_stage_error_frame (s : InvestigationStatus) (aid : String)
    (msg : Option String) (t : Nat) (pre post : List AgentStatus) (a : AgentStatus)
    (hs : s.agents = pre ++ a :: post)
    (hpre : ∀ b ∈ pre, (b.agent_id == aid) = false)
    (ha : (a.agent_id == aid) = true) :
    (applyEvent (UpdateEvent.errorEvent aid msg t) s).agents
        = pre ++ setAgentError msg t a :: post
    ∧ (setAgentError msg t a).status = StatusEnum.error
    ∧ (setAgentError msg t a).error_message = some (msg.getD unknownErrorMsg)
    ∧ (setAgentError msg t a).completed_at = some t
    ∧ (setAgentError msg t a).tasks_completed = a.tasks_completed
    ∧ (setAgentError msg t a).started_at = a.started_at
    ∧ (applyEvent (UpdateEvent.errorEvent aid msg t) s).status = s.status
    ∧ (applyEvent (UpdateEvent.errorEvent aid msg t) s).final_report = s.final_report
    ∧ runningCount (applyEvent (UpdateEvent.errorEvent aid msg t) s).agents
        ≤ runningCount s.agents := by
  refine ⟨?_, rfl, rfl, rfl, rfl, rfl, rfl, rfl, ?_⟩
  · show applyError aid msg t s.agents = _
    rw [hs]
    exact applyError_append aid msg t pre a post hpre ha
  · exact runningCount_applyError_le aid msg t s.agents

/-- The second configured agent record at investigation start. -/
def c8wAgent : AgentStatus :=
  { agent_id := "reconciliation"
    agent_name := "Payment Reconciliation Agent"
    status := StatusEnum.pending
    current_activity := some "Matching visits to payments" }

/-- Closed instance of the C8 frame theorem: an error on the second stage of a
fresh investigation rewrites only that stage. -/
theorem C8_stage_error_frame_witness :
    (applyEvent (UpdateEvent.errorEvent "reconciliation" none 5)
        (initialInvestigation "inv-0002" 0)).agents
      = initialAgents.take 1 ++ setAgentError none 5 c8wAgent :: initialAgents.drop 2
    ∧ (setAgentError none 5 c8wAgent).status = StatusEnum.error := by
  have h := C8_stage_error_frame (initialInvestigation "inv-0002" 0) "reconciliation"
    none 5 (initialAgents.take 1) (initialAgents.drop 2) c8wAgent
    (by decide) (by decide) (by decide)
  exact ⟨h.1, h.2.1⟩

/-! ## Registry and HTTP boundary (start_investigation, app.py endpoints)

The registry self.investigations is a dict; setting a key prepends here and
lookup takes the most recent binding, matching dict get/set semantics. -/

/-- dict set: self.investigations[investigation_id] = investigation. -/
def dictSet (reg : List (String × InvestigationStatus)) (k : String)
    (v : InvestigationStatus) : List (String × InvestigationStatus) :=
  (k, v) :: reg

/-- dict get: self.investigations.get(investigation_id). -/
def dictGet (reg : List (String × InvestigationStatus)) (k : String) :
    Option InvestigationStatus :=
  (reg.find? (fun kv => kv.1 == k)).map (fun kv => kv.2)

/-- start_investigation: build the record with all stages pending, store it in
the registry, then (only afterwards) spawn the background thread and return
the identifier.  The returned pair is the identifier and the registry as it is
at the moment of return; the background events of the Reachable relation act
on the stored record later. -/
def start_investigation (reg : List (String × InvestigationStatus))
    (iid : String) (t : Nat) : String × List (String × InvestigationStatus) :=
  (iid, dictSet reg iid (initialInvestigation iid t))

/-- get_investigation_status: a plain registry lookup. -/
def get_investigation_status (reg : List (String × InvestigationStatus))
    (iid : String) : Option InvestigationStatus :=
  dictGet reg iid

/-- C10: the identifier returned by start_investigation is immediately bound
in the registry: looking it up returns the freshly created record, whose
overall status is running and whose five stages are the configured ones, all
pending. -/
theorem C10_start_registered (reg : List (String × InvestigationStatus))
    (iid : String) (t : Nat) :
    (start_investigation reg iid t).1 = iid
    ∧ get_investigation_status (start_investigation reg iid t).2 iid
        = some (initialInvestigation iid t)
    ∧ (initialInvestigation iid t).status = StatusEnum.running
    ∧ (initialInvestigation iid t).agents.map
        (fun a => (a.agent_id, a.agent_name, a.status))
          = agentConfigs.map (fun c => (c.1, c.2.1, StatusEnum.pending)) := by
  refine ⟨rfl, ?_, rfl, rfl⟩
  simp [get_investigation_status, start_investigation, dictGet, dictSet,
    List.find?]

/-- Response of the final-report endpoint, one constructor per HTTP outcome;
the notComplete body carries no report field. -/
inductive ReportResponse where
  | notFound (investigation_id : String)
  | notComplete (status : StatusEnum)
  | ok (investigation_id : String) (report : Option String)
deriving DecidableEq, Repr

/-- The HTTP status code attached to each report response. -/
def report_status_code : ReportResponse → Nat
  | ReportResponse.notFound _ => 404
  | ReportResponse.notComplete _ => 400
  | ReportResponse.ok _ _ => 200

/-- get_final_report of app.py: 404 on unknown id, 400 while the investigation
is not complete, otherwise 200 with the stored final report. -/
def get_final_report (reg : List (String × InvestigationStatus))
    (iid : String) : ReportResponse :=
  match dictGet reg iid with
  | none => ReportResponse.notFound iid
  | some st =>
      if st.status ≠ StatusEnum.complete then ReportResponse.notComplete st.status
      else ReportResponse.ok iid st.final_report

/-- C9: the report endpoint returns 404 on an unknown identifier (never 200),
400 with no report payload when the investigation exists but is not complete,
and 200 with the stored report text when it is complete. -/
theorem C9_report_endpoint (reg : List (String × InvestigationStatus))
    (iid : String) :
    (dictGet reg iid = none →
      get_final_report reg iid = ReportResponse.notFound iid
        ∧ report_status_code (get_final_report reg iid) = 404)
    ∧ (∀ st, dictGet reg iid = some st → st.status ≠ StatusEnum.complete →
        report_status_code (get_final_report reg iid) = 400
          ∧ ∀ j r, get_final_report reg iid ≠ ReportResponse.ok j r)
    ∧ (∀ st, dictGet reg iid = some st → st.status = StatusEnum.complete →
        get_final_report reg iid = ReportResponse.ok iid st.final_report
          ∧ report_status_code (get_final_report reg iid) = 200) := by
  refine ⟨?_, ?_, ?_⟩
  · intro h
    simp [get_final_report, h, report_status_code]
  · intro st h hne
    simp [get_final_report, h, hne, report_status_code]
  · intro st h hc
    simp [get_final_report, h, hc, report_status_code]

/-- A completed investigation record for the C9 witness. -/
def c9DoneInv : InvestigationStatus :=
  { investigation_id := "inv-done"
    status := StatusEnum.complete
    started_at := 0
    completed_at := some 9
    agents := []
    final_report := some "EXECUTIVE REPORT" }

/-- Registry for the C9 witness: one running and one complete investigation. -/
def c9wReg : List (String × InvestigationStatus) :=
  [("inv-run", initialInvestigation "inv-run" 0), ("inv-done", c9DoneInv)]

/-- Closed instance of C9 exercising all three branches on a concrete
registry: unknown id gives 404, running id gives 400, complete id gives 200
with the stored report. -/
theorem C9_report_endpoint_witness :
    (get_final_report c9wReg "missing" = ReportResponse.notFound "missing"
      ∧ report_status_code (get_final_report c9wReg "missing") = 404)
    ∧ (report_status_code (get_final_report c9wReg "inv-run") = 400
      ∧ ∀ j r, get_final_report c9wReg "inv-run" ≠ ReportResponse.ok j r)
    ∧ (get_final_report c9wReg "inv-done"
        = ReportResponse.ok "inv-done" (some "EXECUTIVE REPORT")
      ∧ report_status_code (get_final_report c9wReg "inv-done") = 200) := by
  refine ⟨?_, ?_, ?_⟩
  · exact (C9_report_endpoint c9wReg "missing").1 (by decide)
  · exact (C9_report_endpoint c9wReg "inv-run").2.1
      (initialInvestigation "inv-run" 0) (by decide) (by decide)
  · have h := (C9_report_endpoint c9wReg "inv-done").2.2 c9DoneInv
      (by decide) (by decide)
    simpa [c9DoneInv] using h
